/-
Verification of the robot-bartender orchestration core.

Shallow embedding of the repository's Python sources:
  * `src/your_nova_app/programs/mcp_bartender.py` — the MCP tool surface
    (`RobotBartender.initialize`, `RobotBartender.serve_beverage`,
    `INITIAL_INVENTORY`), modelled in namespace `Mcp`.
  * `src/your_nova_app/start_here_voice.py` — the voice-controlled program
    (`VoiceListener._listen_loop`, `command_queue`, `initialize_grippers`,
    `close_grippers`, `open_grippers`, `serve_beverage`), modelled in
    namespace `Voice`.

External collaborators (the nova motion stack, the Picovoice engines, the
standard-library FIFO queue) are modelled by oracles: a motion/actuation
step either succeeds or raises, controlled by an explicit failure index;
pose offset-composition (`@`) is kept symbolic as a `Waypoint` constructor.
-/

import Mathlib

set_option autoImplicit false

/-- Python's `str.lower()`, modelled character-wise via `Char.toLower`
(all beverage tokens in the sources are ASCII). -/
def strLower (s : String) : String := ⟨s.data.map Char.toLower⟩

/-- A robot pose: position (x, y, z) and orientation (rx, ry, rz), as in
`nova.types.Pose`. Immutable value type. -/
structure Pose where
  x : Rat
  y : Rat
  z : Rat
  rx : Rat
  ry : Rat
  rz : Rat
deriving DecidableEq

/-- A waypoint handed to the motion planner: either a pose constant, or the
offset-composition `p @ (dx, dy, dz, drx, dry, drz)` of the nova library,
kept symbolic (the composition arithmetic lives in the external library). -/
inductive Waypoint where
  | exactPose (p : Pose)
  | offsetPose (p : Pose) (dx dy dz drx dry drz : Rat)
deriving DecidableEq

/-- One external step of a serve pipeline, as issued by the Python code:
a plan-and-execute motion over a waypoint list, a digital write to one of
the two gripper lines `tool_out[line]`, or an `asyncio.sleep` dwell. -/
inductive Step where
  | move (ws : List Waypoint)
  | write (line : Nat) (val : Bool)
  | sleep (secs : Rat)
deriving DecidableEq

/-- Motions and digital writes can raise; dwells cannot. -/
def Step.fallible : Step → Bool
  | .move _ => true
  | .write _ _ => true
  | .sleep _ => false

/-- Run a step list against an environment oracle: `fail = some i` means the
`i`-th fallible step (0-based, counted from `k`) raises, at which point the
remaining steps are skipped. Returns the steps actually attempted (the
failing step included) and the index of the failure, if any. -/
def runSteps : List Step → Nat → Option Nat → List Step × Option Nat
  | [], _, _ => ([], none)
  | s :: rest, k, fail =>
    if s.fallible then
      if fail = some k then ([s], some k)
      else
        let r := runSteps rest (k + 1) fail
        (s :: r.1, r.2)
    else
      let r := runSteps rest k fail
      (s :: r.1, r.2)

/-- The inventory: a Python dict mapping beverage name to the list of
remaining pick poses, in insertion order. -/
abbrev Inventory : Type := List (String × List Pose)

/-- Dict lookup: `inv[b]` when `b in inv`, else `none`. -/
def invFind : Inventory → String → Option (List Pose)
  | [], _ => none
  | (k, v) :: rest, b => if k = b then some v else invFind rest b

/-- `inv[b].pop(0)`: drop the head pose of key `b`'s list, in place. -/
def invPop : Inventory → String → Inventory
  | [], _ => []
  | (k, v) :: rest, b =>
    if k = b then (k, v.tail) :: rest else (k, v) :: invPop rest b

/-- The dict's key view, in insertion order (`self.inventory.keys()`). -/
def invKeys (inv : Inventory) : List String := inv.map (·.1)

/-- Remaining stock of beverage `b`: length of its pose list, 0 when the
key is absent. -/
def stock (inv : Inventory) (b : String) : Nat :=
  ((invFind inv b).map List.length).getD 0

namespace Mcp

/-- `START_POSE` of mcp_bartender.py. -/
def START_POSE : Pose := ⟨102.9, -505.6, 483.4, -1.496, -2.5662, 0.0903⟩

/-- `COKE_0` of mcp_bartender.py. -/
def COKE_0 : Pose := ⟨-170.6, -609.6, 340, 2.7917, -1.4176, -0.0117⟩

/-- `COKE_1` of mcp_bartender.py. -/
def COKE_1 : Pose := ⟨-162.3, -501.4, 334.1, 2.7916, -1.4181, -0.0115⟩

/-- `REDBULL_0` of mcp_bartender.py. -/
def REDBULL_0 : Pose := ⟨-64.4, -484.6, 332.3, 2.7873, -1.4154, 0.0118⟩

/-- `REDBULL_1` of mcp_bartender.py. -/
def REDBULL_1 : Pose := ⟨-74.2, -606.2, 334.7, 2.7871, -1.4156, -0.0122⟩

/-- `FANTA_0` of mcp_bartender.py. -/
def FANTA_0 : Pose := ⟨35.8, -313.2, 333.9, 2.7879, -1.4062, 0.0075⟩

/-- `CUSTOMER` of mcp_bartender.py. -/
def CUSTOMER : Pose := ⟨103.9, -699.5, 631.4, 1.2941, 2.558, -0.8835⟩

/-- `INITIAL_INVENTORY` of mcp_bartender.py. -/
def INITIAL_INVENTORY : Inventory :=
  [("coke", [COKE_0, COKE_1]),
   ("redbull", [REDBULL_0, REDBULL_1]),
   ("fanta", [FANTA_0])]

/-- The mutable state of a `RobotBartender` instance. The four connection
handles (`nova_instance`, `controller`, `motion_group`, `tcp`) are
abstracted into one `connected` flag: the embedding never inspects them
beyond set/unset. -/
structure Bartender where
  inventory : Inventory
  connected : Bool
  initialized : Bool
deriving DecidableEq

/-- `RobotBartender.__init__`. -/
def Bartender.new : Bartender :=
  { inventory := [], connected := false, initialized := false }

/-- The error a failed serve reports: the exception of a pipeline step, or
the exception of the recovery return-home move. The code binds the former
to `e` and the latter to `recovery_error`. -/
inductive ServeErr where
  | pipelineStep (i : Nat)
  | recoveryStep
deriving DecidableEq

/-- The status string `serve_beverage` returns, structured: one constructor
per distinct format string of the Python function. -/
inductive ServeResult where
  | notInitialized
  | unknownBeverage (b : String) (available : List String)
  | outOfStock (b : String)
  | success (b : String) (remaining : Nat)
  | stepError (b : String) (e : ServeErr)
deriving DecidableEq

/-- Every result other than `success` is a failure marker (`❌`). -/
def ServeResult.isFailure : ServeResult → Bool
  | .success _ _ => false
  | _ => true

/-- Full record of one `serve_beverage` call: the returned status, the
bartender state afterwards, the pipeline steps attempted, the recovery
steps attempted (the post-failure return-home), and whether a recovery
failure was logged (it is never raised or reported). -/
structure ServeRun where
  result : ServeResult
  state : Bartender
  executed : List Step
  recoverySteps : List Step
  loggedRecoveryFailure : Bool
deriving DecidableEq

/-- The fixed step pipeline of `serve_beverage`'s try-block for pick pose
`target`: move home → approach → pick; grip (deassert `tool_out[1]`, assert
`tool_out[0]`); dwell 3; move retreat → customer; dwell 2; release
(deassert `tool_out[0]`, assert `tool_out[1]`); dwell 4; move home. -/
def servePipeline (target : Pose) : List Step :=
  [.move [.exactPose START_POSE,
          .offsetPose target 0 0 (-70) 0 0 0,
          .exactPose target],
   .write 1 false,
   .write 0 true,
   .sleep 3,
   .move [.offsetPose target 0 0 (-70) 0 0 0, .exactPose CUSTOMER],
   .sleep 2,
   .write 0 false,
   .write 1 true,
   .sleep 4,
   .move [.exactPose START_POSE]]

/-- `RobotBartender.serve_beverage`, with the motion/actuation environment
as oracles: `fail = some i` makes the `i`-th fallible pipeline step raise;
`recoveryOk` tells whether the recovery return-home succeeds. -/
def serveBeverage (st : Bartender) (beverage0 : String)
    (fail : Option Nat) (recoveryOk : Bool) : ServeRun :=
  if st.initialized = false then
    { result := .notInitialized, state := st, executed := [],
      recoverySteps := [], loggedRecoveryFailure := false }
  else
    let beverage := strLower beverage0
    match invFind st.inventory beverage with
    | none =>
      { result := .unknownBeverage beverage (invKeys st.inventory),
        state := st, executed := [], recoverySteps := [],
        loggedRecoveryFailure := false }
    | some [] =>
      { result := .outOfStock beverage, state := st, executed := [],
        recoverySteps := [], loggedRecoveryFailure := false }
    | some (target :: rest) =>
      let st' := { st with inventory := invPop st.inventory beverage }
      let remaining := rest.length
      let r := runSteps (servePipeline target) 0 fail
      match r.2 with
      | none =>
        { result := .success beverage remaining, state := st',
          executed := r.1, recoverySteps := [],
          loggedRecoveryFailure := false }
      | some i =>
        { result := .stepError beverage (.pipelineStep i), state := st',
          executed := r.1,
          recoverySteps := [.move [.exactPose START_POSE]],
          loggedRecoveryFailure := !recoveryOk }

/-- Outcome of `RobotBartender.initialize`: early return when already
initialized, success, or a raised connection/startup-motion exception. -/
inductive InitResult where
  | alreadyInitialized
  | ok
  | raisedError
deriving DecidableEq

/-- `RobotBartender.initialize`, with the environment as oracles:
`connectOk` for the Nova connection handshake, `moveOk` for the startup
move. On the already-initialized path it returns at once; otherwise it
first resets the inventory, then connects, then moves to `START_POSE`,
and only then sets `initialized`. A raise leaves the partial mutations. -/
def initRobot (st : Bartender) (connectOk moveOk : Bool) :
    Bartender × InitResult × List Step :=
  if st.initialized then
    (st, .alreadyInitialized, [])
  else
    let st1 := { st with inventory := INITIAL_INVENTORY }
    if connectOk = false then
      (st1, .raisedError, [])
    else
      let st2 := { st1 with connected := true }
      if moveOk = false then
        (st2, .raisedError, [.move [.exactPose START_POSE]])
      else
        ({ st2 with initialized := true }, .ok,
         [.move [.exactPose START_POSE]])

/-- `k` consecutive `serve_drink` calls for the same beverage, each with a
fully succeeding environment. -/
def serveDrinkN (st : Bartender) (b : String) : Nat → Bartender
  | 0 => st
  | k + 1 => (serveBeverage (serveDrinkN st b k) b none true).state

end Mcp

/-! ## Gripper digital lines

The gripper is driven by the two digital outputs `tool_out[0]` and
`tool_out[1]`. We track their levels through the write sequences the
programs issue. -/

/-- Levels of the two gripper lines: `(tool_out[0], tool_out[1])`. -/
abbrev GState : Type := Bool × Bool

/-- Effect of `controller.write("tool_out[line]", val)` on the line levels.
Writes to other indices (none occur in the sources) leave both lines. -/
def applyWrite (s : GState) : Nat × Bool → GState
  | (0, v) => (v, s.2)
  | (1, v) => (s.1, v)
  | _ => s

/-- The digital writes a step list issues, in order. -/
def writesOf (steps : List Step) : List (Nat × Bool) :=
  steps.filterMap fun s =>
    match s with
    | .write l v => some (l, v)
    | _ => none

/-- Line levels after each successive write, starting from `s0` (the state
before the first write is not included). -/
def statesAfter (s0 : GState) : List (Nat × Bool) → List GState
  | [] => []
  | w :: ws => applyWrite s0 w :: statesAfter (applyWrite s0 w) ws

/-- Both gripper lines asserted at once — the forbidden configuration. -/
def bothHigh (s : GState) : Bool := s.1 && s.2

/-- A write sequence is line-safe from `s0` when no state it produces has
both lines asserted. -/
def lineSafe (ws : List (Nat × Bool)) (s0 : GState) : Bool :=
  !(statesAfter s0 ws).any bothHigh

namespace Voice

/-- `start_pose` of start_here_voice.py. -/
def start_pose : Pose := ⟨102.9, -505.6, 483.4, -1.496, -2.5662, 0.0903⟩

/-- `coke0` of start_here_voice.py. -/
def coke0 : Pose := ⟨56.8, -387.9, 323.7, 2.7788, -1.4013, 0.0111⟩

/-- `coke1` of start_here_voice.py. -/
def coke1 : Pose := ⟨56.8, -304.2, 323.7, 2.7788, -1.4014, 0.011⟩

/-- `redbull0` of start_here_voice.py. -/
def redbull0 : Pose := ⟨-30, -297.8, 320.9, 2.7793, -1.401, 0.0113⟩

/-- `redbull1` of start_here_voice.py. -/
def redbull1 : Pose := ⟨-29, -385.3, 320.9, 2.779, -1.4015, 0.011⟩

/-- `fanta0` of start_here_voice.py. -/
def fanta0 : Pose := ⟨-119.5, -387.7, 321, 2.7789, -1.4012, 0.011⟩

/-- `customer` of start_here_voice.py. -/
def customer : Pose := ⟨103.9, -699.5, 631.4, 1.2941, 2.558, -0.8835⟩

/-- `INVENTORY` of start_here_voice.py. -/
def INVENTORY : Inventory :=
  [("coke", [coke0, coke1]),
   ("redbull", [redbull0, redbull1]),
   ("fanta", [fanta0]),
   ("sting", [redbull0, redbull1])]

/-- The writes of `initialize_grippers`: assert `tool_out[0]`, deassert
`tool_out[1]`, deassert `tool_out[0]`. -/
def initGripperWrites : List (Nat × Bool) :=
  [(0, true), (1, false), (0, false)]

/-- The writes of `close_grippers`: deassert `tool_out[0]`, assert
`tool_out[1]`. -/
def closeGripperWrites : List (Nat × Bool) :=
  [(0, false), (1, true)]

/-- The writes of `open_grippers`: deassert `tool_out[1]`, assert
`tool_out[0]`. -/
def openGripperWrites : List (Nat × Bool) :=
  [(1, false), (0, true)]

/-- The fixed step pipeline of the voice program's `serve_beverage`
try-block for pick pose `target`: initialize grippers, move home →
approach → pick, close grippers, dwell 3, move retreat (−200) → customer,
dwell 2, open grippers, dwell 4, move home. -/
def servePipeline (target : Pose) : List Step :=
  [.write 0 true, .write 1 false, .write 0 false,
   .move [.exactPose start_pose,
          .offsetPose target 0 0 (-70) 0 0 0,
          .exactPose target],
   .write 0 false, .write 1 true,
   .sleep 3,
   .move [.offsetPose target 0 0 (-200) 0 0 0, .exactPose customer],
   .sleep 2,
   .write 1 false, .write 0 true,
   .sleep 4,
   .move [.exactPose start_pose]]

/-- Record of one call of the voice program's `serve_beverage`: its Bool
return value, the inventory afterwards, the pipeline steps attempted and
the recovery steps attempted. -/
structure VServeRun where
  ok : Bool
  inventory : Inventory
  executed : List Step
  recoverySteps : List Step
deriving DecidableEq

/-- The voice program's `serve_beverage`, environment as oracles as in
`Mcp.serveBeverage`. Unknown and out-of-stock tokens return `False`
before any pop or motion; otherwise the pipeline runs; a step failure
skips the rest, attempts one return-home and returns `False`. -/
def serveBeverage (inv : Inventory) (beverage : String)
    (fail : Option Nat) : VServeRun :=
  match invFind inv beverage with
  | none => { ok := false, inventory := inv, executed := [], recoverySteps := [] }
  | some [] => { ok := false, inventory := inv, executed := [], recoverySteps := [] }
  | some (target :: _) =>
    let inv' := invPop inv beverage
    let r := runSteps (servePipeline target) 0 fail
    match r.2 with
    | none => { ok := true, inventory := inv', executed := r.1, recoverySteps := [] }
    | some _ =>
      { ok := false, inventory := inv', executed := r.1,
        recoverySteps := [.move [.exactPose start_pose]] }

/-! ## The command channel

`command_queue` is a standard-library FIFO `Queue[str]`; the listener
thread `put`s beverage tokens, the orchestrator loop `get`s them one at a
time and serves each. The queue is modelled by its FIFO contract: a list
with enqueue at the back and dequeue at the front. -/

/-- The channel contents, front first. -/
abbrev Chan : Type := List String

/-- `command_queue.put(t)`: enqueue at the back. -/
def put (q : Chan) (t : String) : Chan := q ++ [t]

/-- `command_queue.get()`: dequeue the front element, if any. -/
def getFront : Chan → Option (String × Chan)
  | [] => none
  | t :: rest => some (t, rest)

/-- Joint state of producer and consumer: the tokens the producer has not
yet sent (in production order), the channel, and the tokens the consumer
has received and served so far (in service order). -/
structure ChanSys where
  pending : List String
  chan : Chan
  received : List String
deriving DecidableEq

/-- One scheduler step: `true` lets the producer `put` its next token,
`false` lets the consumer attempt a `get` (a timeout on an empty channel
changes nothing, matching the loop's empty-`get` branch). -/
def chanStep (s : ChanSys) : Bool → ChanSys
  | true =>
    match s.pending with
    | t :: rest => { s with pending := rest, chan := put s.chan t }
    | [] => s
  | false =>
    match getFront s.chan with
    | some (t, q') => { s with chan := q', received := s.received ++ [t] }
    | none => s

/-- Run an arbitrary interleaving `sched` of producer and consumer turns,
starting with the producer holding all of `ts` and an empty channel. -/
def runChan (ts : List String) (sched : List Bool) : ChanSys :=
  sched.foldl chanStep { pending := ts, chan := [], received := [] }

/-! ## The recognition state machine

`VoiceListener._listen_loop`: per audio frame, in state `wake` the
porcupine detector is consulted; in state `command` the rhino recognizer
is. Both engines are external; their per-frame verdicts are carried on
the frame record. -/

/-- `self.state` of the listener. -/
inductive RecState where
  | wake
  | command
deriving DecidableEq

/-- The rhino inference object: `is_understood`, `intent`, and the slot
mapping (`slots`), modelled as an association list. -/
structure Inference where
  is_understood : Bool
  intent : String
  slots : List (String × String)
deriving DecidableEq

/-- Dict lookup in the slot mapping. -/
def slotsFind : List (String × String) → String → Option String
  | [], _ => none
  | (k, v) :: rest, b => if k = b then some v else slotsFind rest b

/-- The per-frame verdicts of the external engines for one audio frame:
`porcupine.process` (a keyword index, ≥ 0 on a match), `rhino.process`
(the finalized flag), and `rhino.get_inference` (read only when
finalized). -/
structure FrameResult where
  keywordIndex : Int
  finalized : Bool
  inference : Inference
deriving DecidableEq

/-- One iteration of `_listen_loop` on one frame: returns the next state
and the token enqueued into `command_queue`, if any. -/
def listenStep (st : RecState) (f : FrameResult) : RecState × Option String :=
  match st with
  | .wake =>
    if f.keywordIndex ≥ 0 then (.command, none) else (.wake, none)
  | .command =>
    if f.finalized then
      if f.inference.is_understood then
        match slotsFind f.inference.slots "beverage" with
        | some v => (.wake, some (strLower v))
        | none => (.wake, none)
      else (.wake, none)
    else (.command, none)

end Voice

/-! ## Fixtures for concrete runs -/

/-- A bartender right after a successful `initialize`: reset inventory,
connected, initialized. -/
def Mcp.readyBartender : Mcp.Bartender :=
  { inventory := Mcp.INITIAL_INVENTORY, connected := true, initialized := true }

/-- The list positions, inside `Mcp.servePipeline`, of its seven fallible
steps (every step except the three dwells). -/
def Mcp.fallPositions : List Nat := [0, 1, 2, 4, 6, 7, 9]

/-- A two-serve execution of the voice program on its own inventory: the
first serve of "coke" fails at the deliver move (fallible index 6, i.e.
after the gripper has closed), runs its recovery return-home, and the next
serve of "coke" then runs to completion. The concatenation is the full
step sequence the robot controller sees. -/
def Voice.twoServeTrace : List Step :=
  (Voice.serveBeverage Voice.INVENTORY "coke" (some 6)).executed
    ++ (Voice.serveBeverage Voice.INVENTORY "coke" (some 6)).recoverySteps
    ++ (Voice.serveBeverage
          (Voice.serveBeverage Voice.INVENTORY "coke" (some 6)).inventory
          "coke" none).executed

/-- A finalized, understood frame whose inference carries the slot
`beverage = "Coke"`. -/
def Voice.finalizedCokeFrame : Voice.FrameResult :=
  { keywordIndex := -1,
    finalized := true,
    inference :=
      { is_understood := true,
        intent := "orderBeverage",
        slots := [("beverage", "Coke")] } }

/-! ## Inventory lemmas -/

theorem invFind_invPop_self (inv : Inventory) (b : String) :
    invFind (invPop inv b) b = (invFind inv b).map List.tail := by
  induction inv with
  | nil => rfl
  | cons kv rest ih =>
    obtain ⟨k, v⟩ := kv
    by_cases h : k = b
    · simp [invFind, invPop, h]
    · simp [invFind, invPop, h, ih]

theorem invFind_invPop_ne (inv : Inventory) (b c : String) (h : c ≠ b) :
    invFind (invPop inv b) c = invFind inv c := by
  induction inv with
  | nil => rfl
  | cons kv rest ih =>
    obtain ⟨k, v⟩ := kv
    by_cases hk : k = b
    · have hkc : ¬ (k = c) := by
        intro hkc
        exact h (hkc ▸ hk)
      have hbc : ¬ (b = c) := fun hbc => h hbc.symm
      simp [invFind, invPop, hk, hkc, hbc]
    · by_cases hkc : k = c
      · simp [invFind, invPop, hk, hkc, h]
      · simp [invFind, invPop, hk, hkc, ih]

theorem stock_invPop_self (inv : Inventory) (b : String) :
    stock (invPop inv b) b = stock inv b - 1 := by
  unfold stock
  rw [invFind_invPop_self]
  cases hf : invFind inv b with
  | none => rfl
  | some l => cases l <;> simp

theorem stock_invPop_le (inv : Inventory) (b c : String) :
    stock (invPop inv b) c ≤ stock inv c := by
  by_cases h : c = b
  · subst h
    rw [stock_invPop_self]
    omega
  · unfold stock
    rw [invFind_invPop_ne inv b c h]

/-! ## Step-runner lemmas -/

theorem runSteps_none (l : List Step) : ∀ k, runSteps l k none = (l, none) := by
  induction l with
  | nil =>
    intro k
    rfl
  | cons s rest ih =>
    intro k
    by_cases hf : s.fallible
    · simp [runSteps, hf, ih]
    · simp [runSteps, hf, ih]

theorem runSteps_mcp_fail (target : Pose) (i : Nat) (hi : i < 7) :
    runSteps (Mcp.servePipeline target) 0 (some i)
      = ((Mcp.servePipeline target).take (Mcp.fallPositions.getD i 0 + 1), some i) := by
  interval_cases i <;> rfl

/-! ## Characterizations of `Mcp.serveBeverage` -/

theorem serveBeverage_unknown (st : Mcp.Bartender) (b : String)
    (fail : Option Nat) (rOk : Bool)
    (hinit : st.initialized = true)
    (hfind : invFind st.inventory (strLower b) = none) :
    Mcp.serveBeverage st b fail rOk
      = { result := .unknownBeverage (strLower b) (invKeys st.inventory),
          state := st, executed := [], recoverySteps := [],
          loggedRecoveryFailure := false } := by
  unfold Mcp.serveBeverage
  simp [hinit, hfind]

theorem serveBeverage_empty (st : Mcp.Bartender) (b : String)
    (fail : Option Nat) (rOk : Bool)
    (hinit : st.initialized = true)
    (hfind : invFind st.inventory (strLower b) = some []) :
    Mcp.serveBeverage st b fail rOk
      = { result := .outOfStock (strLower b), state := st, executed := [],
          recoverySteps := [], loggedRecoveryFailure := false } := by
  unfold Mcp.serveBeverage
  simp [hinit, hfind]

theorem serveBeverage_pop_success (st : Mcp.Bartender) (b : String) (rOk : Bool)
    (target : Pose) (rest : List Pose)
    (hinit : st.initialized = true)
    (hfind : invFind st.inventory (strLower b) = some (target :: rest)) :
    Mcp.serveBeverage st b none rOk
      = { result := .success (strLower b) rest.length,
          state := { st with inventory := invPop st.inventory (strLower b) },
          executed := Mcp.servePipeline target,
          recoverySteps := [], loggedRecoveryFailure := false } := by
  unfold Mcp.serveBeverage
  simp [hinit, hfind, runSteps_none]

theorem serveBeverage_pop_state (st : Mcp.Bartender) (b : String)
    (fail : Option Nat) (rOk : Bool) (target : Pose) (rest : List Pose)
    (hinit : st.initialized = true)
    (hfind : invFind st.inventory (strLower b) = some (target :: rest)) :
    (Mcp.serveBeverage st b fail rOk).state
      = { st with inventory := invPop st.inventory (strLower b) } := by
  unfold Mcp.serveBeverage
  simp only [hinit, Bool.true_eq_false, if_false, hfind]
  cases (runSteps (Mcp.servePipeline target) 0 fail).2 <;> rfl

theorem serveBeverage_pop_stepfail (st : Mcp.Bartender) (b : String)
    (i : Nat) (rOk : Bool) (target : Pose) (rest : List Pose)
    (hinit : st.initialized = true)
    (hfind : invFind st.inventory (strLower b) = some (target :: rest))
    (hi : i < 7) :
    Mcp.serveBeverage st b (some i) rOk
      = { result := .stepError (strLower b) (.pipelineStep i),
          state := { st with inventory := invPop st.inventory (strLower b) },
          executed := (Mcp.servePipeline target).take (Mcp.fallPositions.getD i 0 + 1),
          recoverySteps := [.move [.exactPose Mcp.START_POSE]],
          loggedRecoveryFailure := !rOk } := by
  unfold Mcp.serveBeverage
  simp [hinit, hfind, runSteps_mcp_fail target i hi]

/-- After `k` fully-successful serves of beverage `b`, the remaining pose
list for `b` is the original one with its first `k` entries dropped, and
the bartender is still initialized. -/
theorem serveDrinkN_invariant (st : Mcp.Bartender) (b : String) (poses : List Pose)
    (hinit : st.initialized = true)
    (hfind : invFind st.inventory (strLower b) = some poses) :
    ∀ k, invFind (Mcp.serveDrinkN st b k).inventory (strLower b) = some (poses.drop k)
       ∧ (Mcp.serveDrinkN st b k).initialized = true := by
  intro k
  induction k with
  | zero => exact ⟨by simpa using hfind, hinit⟩
  | succ k ih =>
    obtain ⟨ihf, ihi⟩ := ih
    cases hd : poses.drop k with
    | nil =>
      rw [hd] at ihf
      have hstep : Mcp.serveDrinkN st b (k + 1)
          = (Mcp.serveBeverage (Mcp.serveDrinkN st b k) b none true).state := rfl
      rw [hstep, serveBeverage_empty _ _ _ _ ihi ihf]
      refine ⟨?_, ihi⟩
      rw [ihf]
      have : poses.drop (k + 1) = [] := by
        rw [← List.tail_drop, hd]
        rfl
      rw [this]
    | cons p rest =>
      rw [hd] at ihf
      have hstep : Mcp.serveDrinkN st b (k + 1)
          = (Mcp.serveBeverage (Mcp.serveDrinkN st b k) b none true).state := rfl
      rw [hstep, serveBeverage_pop_success _ _ _ p rest ihi ihf]
      refine ⟨?_, ihi⟩
      have : poses.drop (k + 1) = rest := by
        rw [← List.tail_drop, hd]
        rfl
      rw [this]
      rw [invFind_invPop_self, ihf]
      rfl

/-! ## Claim theorems -/

/-- C1: for a beverage whose current stock is the pose list `poses` (length
n), the first n fully-successful `serve_drink` calls for it succeed with
remaining counts n−1, n−2, …, 0 in order; the (n+1)-th and every later
call fails out-of-stock and the stock stays 0. -/
theorem serve_stock_countdown (st : Mcp.Bartender) (b : String) (poses : List Pose)
    (hinit : st.initialized = true)
    (hfind : invFind st.inventory (strLower b) = some poses) :
    (∀ k, k < poses.length →
       (Mcp.serveBeverage (Mcp.serveDrinkN st b k) b none true).result
         = .success (strLower b) (poses.length - (k + 1)))
      ∧ (∀ k, poses.length ≤ k →
           (Mcp.serveBeverage (Mcp.serveDrinkN st b k) b none true).result
               = .outOfStock (strLower b)
             ∧ stock (Mcp.serveDrinkN st b k).inventory (strLower b) = 0) := by
  constructor
  · intro k hk
    obtain ⟨hf, hi⟩ := serveDrinkN_invariant st b poses hinit hfind k
    have hd : poses.drop k = poses[k] :: poses.drop (k + 1) :=
      List.drop_eq_getElem_cons hk
    rw [hd] at hf
    rw [serveBeverage_pop_success _ _ _ _ _ hi hf]
    simp [List.length_drop]
  · intro k hk
    obtain ⟨hf, hi⟩ := serveDrinkN_invariant st b poses hinit hfind k
    have hd : poses.drop k = [] := List.drop_eq_nil_of_le hk
    rw [hd] at hf
    refine ⟨?_, ?_⟩
    · rw [serveBeverage_empty _ _ _ _ hi hf]
    · unfold stock
      rw [hf]
      rfl

/-- Witness for C1: from the initial inventory (two cokes), the first serve
reports 1 remaining, and after two serves the third call is out of stock
with stock 0. -/
theorem serve_stock_countdown_witness :
    (Mcp.serveBeverage Mcp.readyBartender "coke" none true).result
        = .success "coke" 1
      ∧ (Mcp.serveBeverage (Mcp.serveDrinkN Mcp.readyBartender "coke" 2) "coke" none true).result
        = .outOfStock "coke"
      ∧ stock (Mcp.serveDrinkN Mcp.readyBartender "coke" 2).inventory "coke" = 0 := by
  have h := serve_stock_countdown Mcp.readyBartender "coke" [Mcp.COKE_0, Mcp.COKE_1]
    rfl rfl
  exact ⟨h.1 0 (by decide), (h.2 2 (by decide)).1, (h.2 2 (by decide)).2⟩

/-- C2: a serve never grows any per-beverage pose list, and any serve that
pops a pose (stock was positive) leaves that beverage's stock at exactly
one less, even when a pipeline step fails and recovery runs — for every
failure index and both recovery outcomes, i.e. recovery never restores the
popped slot. -/
theorem serve_never_grows_and_pop_is_consumed :
    (∀ (st : Mcp.Bartender) (b : String) (fail : Option Nat) (rOk : Bool) (c : String),
       stock (Mcp.serveBeverage st b fail rOk).state.inventory c ≤ stock st.inventory c)
      ∧ (∀ (st : Mcp.Bartender) (b : String) (i : Nat) (rOk : Bool),
           st.initialized = true → 0 < stock st.inventory (strLower b) →
           stock (Mcp.serveBeverage st b (some i) rOk).state.inventory (strLower b)
             = stock st.inventory (strLower b) - 1) := by
  constructor
  · intro st b fail rOk c
    cases hinit : st.initialized with
    | false =>
      have hserve : Mcp.serveBeverage st b fail rOk
          = { result := .notInitialized, state := st, executed := [],
              recoverySteps := [], loggedRecoveryFailure := false } := by
        unfold Mcp.serveBeverage
        simp [hinit]
      rw [hserve]
    | true =>
      cases hf : invFind st.inventory (strLower b) with
      | none => rw [serveBeverage_unknown st b fail rOk hinit hf]
      | some l =>
        cases l with
        | nil => rw [serveBeverage_empty st b fail rOk hinit hf]
        | cons t r =>
          rw [serveBeverage_pop_state st b fail rOk t r hinit hf]
          exact stock_invPop_le _ _ _
  · intro st b i rOk hinit hpos
    cases hf : invFind st.inventory (strLower b) with
    | none =>
      unfold stock at hpos
      rw [hf] at hpos
      simp at hpos
    | some l =>
      cases l with
      | nil =>
        unfold stock at hpos
        rw [hf] at hpos
        simp at hpos
      | cons t r =>
        rw [serveBeverage_pop_state st b (some i) rOk t r hinit hf]
        exact stock_invPop_self _ _

/-- Witness for C2: serving "coke" with the first motion failing and a
failing recovery still consumes exactly one coke. -/
theorem serve_pop_is_consumed_witness :
    0 < stock Mcp.readyBartender.inventory "coke"
      ∧ stock (Mcp.serveBeverage Mcp.readyBartender "coke" (some 0) false).state.inventory "coke"
        = stock Mcp.readyBartender.inventory "coke" - 1 :=
  ⟨by decide,
   serve_never_grows_and_pop_is_consumed.2 Mcp.readyBartender "coke" 0 false rfl (by decide)⟩

/-- C3: serving a token that (after normalization) is not an inventory key,
or one whose pose list is empty, returns a failure result with no side
effect: the whole bartender state is unchanged, no pipeline step is
attempted, and no recovery motion is issued. -/
theorem serve_unknown_or_empty_no_side_effect (st : Mcp.Bartender) (b : String)
    (fail : Option Nat) (rOk : Bool)
    (hinit : st.initialized = true)
    (h : invFind st.inventory (strLower b) = none
         ∨ invFind st.inventory (strLower b) = some []) :
    (Mcp.serveBeverage st b fail rOk).result.isFailure = true
      ∧ (Mcp.serveBeverage st b fail rOk).state = st
      ∧ (Mcp.serveBeverage st b fail rOk).executed = []
      ∧ (Mcp.serveBeverage st b fail rOk).recoverySteps = [] := by
  rcases h with h | h
  · rw [serveBeverage_unknown st b fail rOk hinit h]
    exact ⟨rfl, rfl, rfl, rfl⟩
  · rw [serveBeverage_empty st b fail rOk hinit h]
    exact ⟨rfl, rfl, rfl, rfl⟩

/-- Witness for C3: "pepsi" is not an inventory key; the serve fails and
leaves the bartender untouched with no motion. -/
theorem serve_no_side_effect_witness :
    (Mcp.serveBeverage Mcp.readyBartender "pepsi" none true).result.isFailure = true
      ∧ (Mcp.serveBeverage Mcp.readyBartender "pepsi" none true).state = Mcp.readyBartender
      ∧ (Mcp.serveBeverage Mcp.readyBartender "pepsi" none true).executed = []
      ∧ (Mcp.serveBeverage Mcp.readyBartender "pepsi" none true).recoverySteps = [] :=
  serve_unknown_or_empty_no_side_effect Mcp.readyBartender "pepsi" none true rfl
    (Or.inl (by decide))

/-- C4: when the i-th fallible pipeline step of a serve fails, the
remaining pipeline steps are skipped (execution stops at that step),
exactly one return-to-home recovery move is attempted, a recovery failure
is only logged, and the reported outcome is the original step failure,
never the recovery failure. -/
theorem serve_step_failure_recovery (st : Mcp.Bartender) (b : String)
    (target : Pose) (rest : List Pose) (i : Nat) (rOk : Bool)
    (hinit : st.initialized = true)
    (hfind : invFind st.inventory (strLower b) = some (target :: rest))
    (hi : i < 7) :
    (Mcp.serveBeverage st b (some i) rOk).result
        = .stepError (strLower b) (.pipelineStep i)
      ∧ (Mcp.serveBeverage st b (some i) rOk).executed
        = (Mcp.servePipeline target).take (Mcp.fallPositions.getD i 0 + 1)
      ∧ (Mcp.serveBeverage st b (some i) rOk).recoverySteps
        = [.move [.exactPose Mcp.START_POSE]]
      ∧ (Mcp.serveBeverage st b (some i) rOk).loggedRecoveryFailure = !rOk := by
  rw [serveBeverage_pop_stepfail st b i rOk target rest hinit hfind hi]
  exact ⟨rfl, rfl, rfl, rfl⟩

/-- Witness for C4: the deliver move (fallible index 3) fails and the
recovery move also fails; the outcome still reports pipeline step 3 and
one home move was attempted. -/
theorem serve_step_failure_recovery_witness :
    (Mcp.serveBeverage Mcp.readyBartender "coke" (some 3) false).result
        = .stepError "coke" (.pipelineStep 3)
      ∧ (Mcp.serveBeverage Mcp.readyBartender "coke" (some 3) false).recoverySteps
        = [.move [.exactPose Mcp.START_POSE]]
      ∧ (Mcp.serveBeverage Mcp.readyBartender "coke" (some 3) false).loggedRecoveryFailure
        = true := by
  have h := serve_step_failure_recovery Mcp.readyBartender "coke" Mcp.COKE_0 [Mcp.COKE_1]
    3 false rfl rfl (by decide)
  exact ⟨h.1, h.2.2.1, h.2.2.2⟩

/-- C6: on the success path a serve executes exactly this step sequence, in
order, nothing reordered, repeated or skipped: move home → approach offset
above the pick pose → pick pose; actuate close (deassert tool_out[1],
assert tool_out[0]); dwell 3; move retreat offset above the pick pose →
customer pose; dwell 2; actuate open (deassert tool_out[0], assert
tool_out[1]); dwell 4; move home. -/
theorem serve_success_step_order (st : Mcp.Bartender) (b : String)
    (target : Pose) (rest : List Pose) (rOk : Bool)
    (hinit : st.initialized = true)
    (hfind : invFind st.inventory (strLower b) = some (target :: rest)) :
    (Mcp.serveBeverage st b none rOk).result = .success (strLower b) rest.length
      ∧ (Mcp.serveBeverage st b none rOk).executed
        = [.move [.exactPose Mcp.START_POSE,
                  .offsetPose target 0 0 (-70) 0 0 0,
                  .exactPose target],
           .write 1 false,
           .write 0 true,
           .sleep 3,
           .move [.offsetPose target 0 0 (-70) 0 0 0, .exactPose Mcp.CUSTOMER],
           .sleep 2,
           .write 0 false,
           .write 1 true,
           .sleep 4,
           .move [.exactPose Mcp.START_POSE]]
      ∧ (Mcp.serveBeverage st b none rOk).recoverySteps = [] := by
  rw [serveBeverage_pop_success st b rOk target rest hinit hfind]
  exact ⟨rfl, rfl, rfl⟩

/-- Witness for C6: serving the single fanta runs the whole pipeline for
its pick pose and succeeds with 0 remaining. -/
theorem serve_success_step_order_witness :
    (Mcp.serveBeverage Mcp.readyBartender "fanta" none true).result = .success "fanta" 0
      ∧ (Mcp.serveBeverage Mcp.readyBartender "fanta" none true).executed
        = Mcp.servePipeline Mcp.FANTA_0 := by
  have h := serve_success_step_order Mcp.readyBartender "fanta" Mcp.FANTA_0 [] true rfl rfl
  exact ⟨h.1, h.2.1⟩

/-- C9: with no "sting" key in the inventory, a serve of any casing of
"sting" behaves exactly like serving "sting" itself and fails with the
unknown-beverage result listing the available keys. -/
theorem serve_sting_unknown_case_insensitive (st : Mcp.Bartender) (s : String)
    (fail : Option Nat) (rOk : Bool)
    (hinit : st.initialized = true)
    (hfind : invFind st.inventory "sting" = none)
    (hcase : strLower s = "sting") :
    Mcp.serveBeverage st s fail rOk = Mcp.serveBeverage st "sting" fail rOk
      ∧ (Mcp.serveBeverage st s fail rOk).result
        = .unknownBeverage "sting" (invKeys st.inventory) := by
  have hlow : strLower "sting" = "sting" := by decide
  constructor
  · unfold Mcp.serveBeverage
    rw [hcase, hlow]
  · have h1 : Mcp.serveBeverage st s fail rOk
        = { result := .unknownBeverage (strLower s) (invKeys st.inventory),
            state := st, executed := [], recoverySteps := [],
            loggedRecoveryFailure := false } := by
      apply serveBeverage_unknown st s fail rOk hinit
      rw [hcase]
      exact hfind
    rw [h1, hcase]

/-- Witness for C9: serving "STING" against the initial inventory is
identical to serving "sting" and reports unknown beverage. -/
theorem serve_sting_unknown_witness :
    Mcp.serveBeverage Mcp.readyBartender "STING" none true
        = Mcp.serveBeverage Mcp.readyBartender "sting" none true
      ∧ (Mcp.serveBeverage Mcp.readyBartender "STING" none true).result
        = .unknownBeverage "sting" ["coke", "redbull", "fanta"] := by
  have h := serve_sting_unknown_case_insensitive Mcp.readyBartender "STING" none true
    rfl (by decide) (by decide)
  exact ⟨h.1, h.2⟩

/-- C10: calling initialize on a bartender whose initialized flag is
already set returns immediately: no inventory reset, no connection, no
startup motion, and every field of the bartender unchanged. -/
theorem initRobot_already_initialized_noop (st : Mcp.Bartender) (cOk mOk : Bool)
    (h : st.initialized = true) :
    Mcp.initRobot st cOk mOk = (st, .alreadyInitialized, []) := by
  unfold Mcp.initRobot
  simp [h]

/-- Witness for C10: re-initializing an already-initialized bartender is
the identity on its state and issues no step. -/
theorem initRobot_already_initialized_noop_witness :
    Mcp.initRobot Mcp.readyBartender true true
      = (Mcp.readyBartender, .alreadyInitialized, []) :=
  initRobot_already_initialized_noop Mcp.readyBartender true true rfl

theorem chanStep_conserves (s : Voice.ChanSys) (c : Bool) :
    (Voice.chanStep s c).received ++ (Voice.chanStep s c).chan
        ++ (Voice.chanStep s c).pending
      = s.received ++ s.chan ++ s.pending := by
  cases c
  · cases hq : s.chan with
    | nil => simp [Voice.chanStep, Voice.getFront, hq]
    | cons t rest => simp [Voice.chanStep, Voice.getFront, hq]
  · cases hp : s.pending with
    | nil => simp [Voice.chanStep, hp]
    | cons t rest => simp [Voice.chanStep, Voice.put, hp]

theorem runChan_conserves (sched : List Bool) :
    ∀ s : Voice.ChanSys,
      (sched.foldl Voice.chanStep s).received ++ (sched.foldl Voice.chanStep s).chan
          ++ (sched.foldl Voice.chanStep s).pending
        = s.received ++ s.chan ++ s.pending := by
  induction sched with
  | nil =>
    intro s
    rfl
  | cons c rest ih =>
    intro s
    rw [List.foldl_cons, ih (Voice.chanStep s c), chanStep_conserves]

/-- C5: under every interleaving of producer and consumer turns, the
tokens received so far, the channel contents, and the tokens not yet sent
concatenate (in that order) back to the produced sequence — so tokens are
received exactly in production order with no deduplication — and once the
channel and the producer are drained, the received sequence equals the
produced one. -/
theorem channel_fifo_order (ts : List String) (sched : List Bool) :
    (Voice.runChan ts sched).received ++ (Voice.runChan ts sched).chan
        ++ (Voice.runChan ts sched).pending = ts
      ∧ ((Voice.runChan ts sched).chan = [] → (Voice.runChan ts sched).pending = [] →
         (Voice.runChan ts sched).received = ts) := by
  have h := runChan_conserves sched { pending := ts, chan := [], received := [] }
  constructor
  · simpa [Voice.runChan] using h
  · intro h1 h2
    have h3 : (Voice.runChan ts sched).received ++ (Voice.runChan ts sched).chan
        ++ (Voice.runChan ts sched).pending = ts := by
      simpa [Voice.runChan] using h
    rw [h1, h2] at h3
    simpa using h3

/-- Witness for C5: two consecutive identical tokens both enqueue and are
both received, in order. -/
theorem channel_fifo_order_witness :
    (Voice.runChan ["coke", "coke"] [true, false, true, false]).received
      = ["coke", "coke"] :=
  (channel_fifo_order ["coke", "coke"] [true, false, true, false]).2
    (by decide) (by decide)

theorem writesOf_mcp_servePipeline (target : Pose) :
    writesOf (Mcp.servePipeline target)
      = [(1, false), (0, true), (0, false), (1, true)] := rfl

/-- C7 counterexample: the two gripper outputs can be simultaneously
asserted during a serve. Starting with both lines deasserted, a voice
serve that fails at the deliver move (after the gripper closed) leaves
tool_out[1] asserted, and the gripper initialization of the next serve
asserts tool_out[0] before deasserting tool_out[1], producing a state with
both lines high. -/
theorem gripper_both_asserted_counterexample :
    lineSafe (writesOf Voice.twoServeTrace) (false, false) = false := by decide

/-- C7 amended: every actuation of the MCP serve pipeline and every voice
close/open actuation deasserts one gripper line before asserting the
other, so from any prior line state the two outputs are never both
asserted; the voice gripper initialization also never asserts both —
provided tool_out[1] is deasserted beforehand. -/
theorem gripper_lines_exclusion :
    (∀ (target : Pose) (s0 : GState),
        lineSafe (writesOf (Mcp.servePipeline target)) s0 = true)
      ∧ (∀ s0 : GState, lineSafe Voice.closeGripperWrites s0 = true)
      ∧ (∀ s0 : GState, lineSafe Voice.openGripperWrites s0 = true)
      ∧ (∀ a : Bool, lineSafe Voice.initGripperWrites (a, false) = true) := by
  refine ⟨?_, by decide, by decide, by decide⟩
  intro target s0
  rw [writesOf_mcp_servePipeline]
  revert s0
  decide

/-- C8: in command state, a finalized frame always returns the recognizer
to wake state, and a (lower-cased) beverage token is emitted if and only
if the inference is understood and carries a "beverage" slot; an
unfinalized frame changes nothing and emits nothing. -/
theorem listen_finalized_behavior (f : Voice.FrameResult) :
    (f.finalized = true →
        (Voice.listenStep .command f).1 = .wake
      ∧ (∀ v, f.inference.is_understood = true →
           Voice.slotsFind f.inference.slots "beverage" = some v →
           (Voice.listenStep .command f).2 = some (strLower v))
      ∧ ((Voice.listenStep .command f).2 ≠ none →
           f.inference.is_understood = true
         ∧ Voice.slotsFind f.inference.slots "beverage" ≠ none))
    ∧ (f.finalized = false → Voice.listenStep .command f = (.command, none)) := by
  constructor
  · intro hf
    refine ⟨?_, ?_, ?_⟩
    · unfold Voice.listenStep
      cases hu : f.inference.is_understood with
      | false => simp [hf, hu]
      | true =>
        cases hs : Voice.slotsFind f.inference.slots "beverage" <;> simp [hf, hu, hs]
    · intro v hu hs
      unfold Voice.listenStep
      simp [hf, hu, hs]
    · intro hne
      unfold Voice.listenStep at hne
      cases hu : f.inference.is_understood with
      | false => simp [hf, hu] at hne
      | true =>
        cases hs : Voice.slotsFind f.inference.slots "beverage" with
        | none => simp [hf, hu, hs] at hne
        | some v =>
          exact ⟨rfl, by simp⟩
  · intro hf
    unfold Voice.listenStep
    simp [hf]

/-- Witness for C8: a finalized, understood frame with slot
beverage = "Coke" emits the token "coke" and returns to wake state. -/
theorem listen_finalized_witness :
    (Voice.listenStep .command Voice.finalizedCokeFrame).1 = Voice.RecState.wake
      ∧ (Voice.listenStep .command Voice.finalizedCokeFrame).2 = some "coke" := by
  have h := listen_finalized_behavior Voice.finalizedCokeFrame
  refine ⟨(h.1 rfl).1, ?_⟩
  have h2 := (h.1 rfl).2.1 "Coke" rfl rfl
  rw [h2]
  decide
